import Mathlib

/-!
# Verification of the Holt-Winters exponential smoothing module

Shallow embedding of `statsmodels/tsa/holtwinters.py` (the nine specialized
objective functions `_holt_*` / `_holt_win_*`, the initializer and free-mask
construction in `ExponentialSmoothing.fit`, and the parametrized recursion and
diagnostics assembly in `ExponentialSmoothing._predict`), together with
theorems checking the natural-language specification against it.

Conventions of the embedding:
* Python floats are modelled as exact numbers: `ℚ` where the code only uses
  field operations, `ℝ` where the code uses `**` with a real exponent
  (modelled by `Real.rpow`) — overflow/rounding is not modelled.
* NumPy arrays are modelled as `List`s; reads `a[i]` become `List.getD a i 0`
  (arrays in the source are zero-initialized, and only already-written cells
  are read at the indices the theorems touch).
* Python slices keep their exact semantics, including the `-0` corner cases:
  `a[:-k]` is empty for `k = 0`, and `a[-k:]` is the whole list for `k = 0`.
* A Python `ZeroDivisionError` is modelled with `Except String`.
-/

namespace HoltWinters

/-! ## Python slice and NumPy helpers -/

/-- Python slice `a[:-k]`: drop the last `k` elements; for `k = 0` this is
`a[:0] = []` (the `-0` quirk). -/
def pyDropLast {α : Type} (xs : List α) (k : ℕ) : List α :=
  if k = 0 then [] else xs.take (xs.length - k)

/-- Python slice `a[-k:]`: the last `k` elements; for `k = 0` this is
`a[0:] = a` (the `-0` quirk), and for `k > len a` it is also all of `a`. -/
def pyFromLast {α : Type} (xs : List α) (k : ℕ) : List α :=
  if k = 0 then xs else xs.drop (xs.length - k)

/-- `np.mean` of a list of rationals (sum divided by length; `0/0 = 0` for the
empty list, where NumPy would produce NaN — never hit in the theorems). -/
def mean (xs : List ℚ) : ℚ := xs.sum / xs.length

/-- `np.cumsum` with a running accumulator. -/
def cumsumFrom (acc : ℚ) : List ℚ → List ℚ
  | [] => []
  | x :: rest => (acc + x) :: cumsumFrom (acc + x) rest

/-- `np.cumsum`. -/
def cumsum (xs : List ℚ) : List ℚ := cumsumFrom 0 xs

theorem cumsumFrom_getD (xs : List ℚ) (acc : ℚ) (i : ℕ) (hi : i < xs.length) :
    (cumsumFrom acc xs).getD i 0 = acc + (xs.take (i + 1)).sum := by
  induction xs generalizing acc i with
  | nil => simp at hi
  | cons x rest ih =>
    cases i with
    | zero => simp [cumsumFrom]
    | succ j =>
      simp only [cumsumFrom, List.getD_cons_succ, List.take, List.sum_cons]
      rw [ih (acc + x) j (by simpa using hi)]
      ring

/-! ## Free-parameter mask (`ExponentialSmoothing.fit`, lines 520-533)

`xi` is the boolean mask selecting which entries of
`p = [alpha, beta, gamma, l0, b0, phi, s0, ..., s_{m-1}]` the optimizer may
vary.  `aFix/bFix/gFix/pFix` model `alpha/beta/gamma/phi is not None`
(user-fixed values), so `alpha is None` becomes `!aFix`, and
`phi is None and damped` becomes `!pFix && damped`. -/

def xiMask (seasoning trending damped : Bool)
    (aFix bFix gFix pFix : Bool) (m : ℕ) : List Bool :=
  if seasoning then
    [!aFix, !bFix, !gFix, true, trending, !pFix && damped] ++
      List.replicate m true
  else if trending then
    [!aFix, !bFix, false, true, true, !pFix && damped] ++
      List.replicate m false
  else
    [!aFix, false, false, true, false, false] ++ List.replicate m false

/-! ## Initializer (`ExponentialSmoothing.fit`, lines 493-504) -/

/-- Seasonal `l0`: `y[np.arange(n) % m == 0].mean()`. -/
def seasonalL0 (y : List ℚ) (m : ℕ) : ℚ :=
  mean ((((List.range y.length).filter (fun i => i % m = 0)).map
    (fun i => y.getD i 0)))

/-- NumPy broadcast subtraction of two 1-D arrays: elementwise when lengths
agree, scalar-broadcast when one side has length 1, and a shape error
otherwise (`operands could not be broadcast together`). -/
def npBroadcastSub (a b : List ℚ) : Except String (List ℚ) :=
  if a.length = b.length then .ok (List.zipWith (fun x z => x - z) a b)
  else if a.length = 1 then .ok (b.map (fun z => a.getD 0 0 - z))
  else if b.length = 1 then .ok (a.map (fun x => x - b.getD 0 0))
  else .error "ValueError: operands could not be broadcast together"

/-- Seasonal `b0` for a trending model:
`((y[m:m + m] - y[:m]) / m).mean()` with NumPy broadcast semantics. -/
def seasonalB0 (y : List ℚ) (m : ℕ) : Except String ℚ :=
  (npBroadcastSub ((y.drop m).take m) (y.take m)).map
    (fun d => mean (d.map (fun x => x / m)))

/-- Seasonal `s0`: `y[:m] / l0` (multiplicative) or `y[:m] - l0` (additive).
`mulSeasonal` selects the branch. -/
def seasonalS0 (y : List ℚ) (m : ℕ) (mulSeasonal : Bool) : List ℚ :=
  if mulSeasonal then (y.take m).map (fun v => v / seasonalL0 y m)
  else (y.take m).map (fun v => v - seasonalL0 y m)

/-! ## Diagnostics assembler (`ExponentialSmoothing._predict`, lines 577-709) -/

/-- `scipy.spatial.distance.sqeuclidean`: sum of squared differences. -/
def sqeuclideanQ (a b : List ℚ) : ℚ :=
  (List.zipWith (fun x z => (x - z) ^ 2) a b).sum

/-- Degrees of freedom, line 686:
`k = m * seasoning + 2 * trending + 2 + 1 * damped`. -/
def kParams (m : ℕ) (seasoning trending damped : Bool) : ℕ :=
  m * (cond seasoning 1 0) + 2 * (cond trending 1 0) + 2 + (cond damped 1 0)

/-- Line 687: `AIC = n * np.log(SSE / n) + (k) * 2`. -/
noncomputable def aicFun (SSE : ℚ) (n k : ℕ) : ℝ :=
  (n : ℝ) * Real.log ((SSE : ℝ) / (n : ℝ)) + (k : ℝ) * 2

/-- Line 689: `BIC = n * np.log(SSE / n) + (k) * np.log(n)`. -/
noncomputable def bicFun (SSE : ℚ) (n k : ℕ) : ℝ :=
  (n : ℝ) * Real.log ((SSE : ℝ) / (n : ℝ)) + (k : ℝ) * Real.log (n : ℝ)

/-- Line 688: `AICc = AIC + (2 * (k + 2) * (k + 3)) / (n - k - 3)`.
`n` and `k` are Python `int`s, so the correction term is an exact integer
division: when `n - k - 3 = 0` Python raises `ZeroDivisionError` (modelled as
`.error`); otherwise the quotient is the exact rational, added to `AIC`. -/
noncomputable def computeAICc (AIC : ℝ) (n k : ℕ) : Except String ℝ :=
  if (n : ℤ) - (k : ℤ) - 3 = 0 then .error "ZeroDivisionError"
  else .ok (AIC + (2 * ((k : ℝ) + 2) * ((k : ℝ) + 3)) / ((n : ℝ) - (k : ℝ) - 3))

/-- The fields of `HoltWintersResults` populated by `_predict` that the claims
talk about (lines 684-708). -/
structure HWFitQ where
  fittedfcast : List ℚ
  fittedvalues : List ℚ
  fcast : List ℚ
  SSE : ℚ
  AIC : ℝ
  AICc : Except String ℝ
  BIC : ℝ
  resid : List ℚ

/-- Lines 577-580 and 684-708 of `_predict`: given the combined
fitted/forecast series `fitted` (length `n + h`) and the original `data`,
compute the diagnostics and assemble the result, applying the optional
`remove_bias` shift *after* `SSE`, `AIC`, `AICc`, `BIC` and `resid` have been
computed.  `hreq` is the caller's `h`; internally `h = 1` when `hreq = 0`,
while `fcast` is sliced with `h_fcast = hreq` (`fitted[-h_fcast:]`). -/
noncomputable def mkDiagnostics (data fitted : List ℚ) (hreq k : ℕ)
    (removeBias : Bool) : HWFitQ :=
  let h := if hreq = 0 then 1 else hreq
  let n := data.length
  let fittedIn := pyDropLast fitted h
  let SSE := sqeuclideanQ fittedIn data
  let AIC := aicFun SSE n k
  let AICc := computeAICc AIC n k
  let BIC := bicFun SSE n k
  let resid := List.zipWith (fun d f => d - f) data fittedIn
  let fitted' := if removeBias then fitted.map (fun v => v + mean resid)
    else fitted
  { fittedfcast := fitted'
    fittedvalues := pyDropLast fitted' h
    fcast := pyFromLast fitted' hreq
    SSE := SSE
    AIC := AIC
    AICc := AICc
    BIC := BIC
    resid := resid }

/-- The level recursion of `_predict` for trend = None, seasonal = None
(lines 663-666): `l[i] = y_alpha[i-1] + alphac * l[i-1]`; returns
`[l[0], ..., l[n]]`. -/
def sesLevelsGo (alpha l : ℚ) : List ℚ → List ℚ
  | [] => [l]
  | yi :: rest => l :: sesLevelsGo alpha (alpha * yi + (1 - alpha) * l) rest

/-- `_predict` specialized to trend = None, seasonal = None: run the level
recursion, hold the level constant over the forecast window
(`l[i:] = l[i]`), recombine (`fitted = trended(l, b) = l`), and assemble the
result (`k = 2` for this model shape). -/
noncomputable def predictSimple (alpha l0 : ℚ) (y : List ℚ) (hreq : ℕ)
    (removeBias : Bool) : HWFitQ :=
  let h := if hreq = 0 then 1 else hreq
  let n := y.length
  let lvl := sesLevelsGo alpha l0 y
  let lN := lvl.getD n 0
  let lArr := lvl.take n ++ List.replicate h lN
  mkDiagnostics y lArr hreq (kParams 0 false false false) removeBias

/-! ## `_predict` for trend = 'add', seasonal = None (lines 609-675)

For the additive trend: `trended = np.add`, `detrend = np.subtract`,
`dampen = np.multiply` (lines 617-628), so the in-sample loop is
`l[i] = y_alpha[i-1] + alphac * (l[i-1] + b[i-1]*phi)`,
`b[i] = beta * (l[i] - l[i-1]) + betac * (b[i-1]*phi)`, and after the loop
`l[i:] = l[i]`, `b[:i] = b[:i]*phi`, `b[i:] = b[i]*phi_h`,
`fitted = l + b` (lines 663-675). -/

/-- The in-sample loop, returning `([l[0..n]], [b[0..n]])`. -/
def holtAddGo (alpha beta phi l b : ℚ) : List ℚ → List ℚ × List ℚ
  | [] => ([l], [b])
  | yi :: rest =>
    let l' := alpha * yi + (1 - alpha) * (l + b * phi)
    let b' := beta * (l' - l) + (1 - beta) * (b * phi)
    ((holtAddGo alpha beta phi l' b' rest).1.cons l,
     (holtAddGo alpha beta phi l' b' rest).2.cons b)

/-- Line 615-616: `phi_h = np.cumsum(np.repeat(phi, h)**np.arange(1, h+1))`
when damped, else `np.arange(1, h+1)`. -/
def phiHolt (damped : Bool) (phi : ℚ) (h : ℕ) : List ℚ :=
  if damped then cumsum ((List.range' 1 h).map (fun j => phi ^ j))
  else (List.range' 1 h).map (fun j : ℕ => (j : ℚ))

/-- The arrays of the trend = 'add', seasonal = None branch of `_predict`
after the forecast-extension assignments. -/
structure HoltAddState where
  lvl : List ℚ
  slp : List ℚ
  lArr : List ℚ
  bArr : List ℚ
  fitted : List ℚ

/-- `_predict` state computation for trend = 'add', seasonal = None. -/
def predictHoltAdd (alpha beta phi l0 b0 : ℚ) (y : List ℚ) (hreq : ℕ)
    (damped : Bool) : HoltAddState :=
  let h := if hreq = 0 then 1 else hreq
  let n := y.length
  let lb := holtAddGo alpha beta phi l0 b0 y
  let lN := lb.1.getD n 0
  let bN := lb.2.getD n 0
  let lArr := lb.1.take n ++ List.replicate h lN
  let bArr := (lb.2.take n).map (fun x => x * phi) ++
    (phiHolt damped phi h).map (fun c => bN * c)
  { lvl := lb.1
    slp := lb.2
    lArr := lArr
    bArr := bArr
    fitted := List.zipWith (fun a b => a + b) lArr bArr }

theorem holtAddGo_length (alpha beta phi l b : ℚ) (y : List ℚ) :
    (holtAddGo alpha beta phi l b y).1.length = y.length + 1 ∧
    (holtAddGo alpha beta phi l b y).2.length = y.length + 1 := by
  induction y generalizing l b with
  | nil => simp [holtAddGo]
  | cons yi rest ih => simp [holtAddGo, ih]

theorem cumsumFrom_length (acc : ℚ) (xs : List ℚ) :
    (cumsumFrom acc xs).length = xs.length := by
  induction xs generalizing acc with
  | nil => rfl
  | cons x rest ih => simp [cumsumFrom, ih]

theorem take_range' (s : ℕ) : ∀ (n k : ℕ), k ≤ n →
    (List.range' s n).take k = List.range' s k := by
  intro n
  induction n generalizing s with
  | zero => intro k hk; interval_cases k; rfl
  | succ m ih =>
    intro k hk
    cases k with
    | zero => rfl
    | succ j =>
      simp only [List.range'_succ, List.take_succ_cons]
      rw [ih (s + 1) j (by omega)]

theorem sum_map_range'_pow (phi : ℚ) (k : ℕ) :
    (((List.range' 1 k).map (fun j => phi ^ j)).sum) =
      ∑ j ∈ Finset.Icc 1 k, phi ^ j := by
  induction k with
  | zero => simp
  | succ m ih =>
    rw [List.range'_concat, Finset.sum_Icc_succ_top (by omega)]
    simp only [List.map_append, List.sum_append, ih]
    have h1m : 1 + m = m + 1 := by omega
    simp [h1m]

theorem phiHolt_length (damped : Bool) (phi : ℚ) (h : ℕ) :
    (phiHolt damped phi h).length = h := by
  cases damped
  · rw [phiHolt, if_neg (by simp), List.length_map, List.length_range']
  · rw [phiHolt, if_pos rfl, cumsum, cumsumFrom_length, List.length_map,
      List.length_range']

/-- The damped entries of `phi_h` are the partial geometric sums
`phi^1 + ... + phi^k`. -/
theorem phiHolt_damped_getD (phi : ℚ) (h k : ℕ) (hk1 : 1 ≤ k) (hkh : k ≤ h) :
    (phiHolt true phi h).getD (k - 1) 0 = ∑ j ∈ Finset.Icc 1 k, phi ^ j := by
  rw [phiHolt, if_pos rfl, cumsum]
  rw [cumsumFrom_getD _ _ _ (by rw [List.length_map, List.length_range']; omega)]
  have htake : (k - 1) + 1 = k := by omega
  rw [htake, ← List.map_take, take_range' 1 h k hkh, sum_map_range'_pow]
  ring

/-- The undamped entries of `phi_h` are `1, 2, ..., h`. -/
theorem phiHolt_undamped_getD (phi : ℚ) (h k : ℕ) (hk1 : 1 ≤ k) (hkh : k ≤ h) :
    (phiHolt false phi h).getD (k - 1) 0 = (k : ℚ) := by
  rw [phiHolt, if_neg (by simp)]
  have hlt : k - 1 < ((List.range' 1 h).map (fun j : ℕ => (j : ℚ))).length := by
    rw [List.length_map, List.length_range']; omega
  rw [List.getD_eq_getElem _ _ hlt]
  simp only [List.getElem_map, List.getElem_range']
  have hidx : 1 + 1 * (k - 1) = k := by omega
  rw [hidx]

theorem predictHoltAdd_lArr (alpha beta phi l0 b0 : ℚ) (y : List ℚ)
    (hreq : ℕ) (damped : Bool) :
    (predictHoltAdd alpha beta phi l0 b0 y hreq damped).lArr =
      (holtAddGo alpha beta phi l0 b0 y).1.take y.length ++
        List.replicate (if hreq = 0 then 1 else hreq)
          ((holtAddGo alpha beta phi l0 b0 y).1.getD y.length 0) := rfl

theorem predictHoltAdd_bArr (alpha beta phi l0 b0 : ℚ) (y : List ℚ)
    (hreq : ℕ) (damped : Bool) :
    (predictHoltAdd alpha beta phi l0 b0 y hreq damped).bArr =
      ((holtAddGo alpha beta phi l0 b0 y).2.take y.length).map
          (fun x => x * phi) ++
        (phiHolt damped phi (if hreq = 0 then 1 else hreq)).map
          (fun c => (holtAddGo alpha beta phi l0 b0 y).2.getD y.length 0 * c) :=
  rfl

theorem predictHoltAdd_lvl (alpha beta phi l0 b0 : ℚ) (y : List ℚ)
    (hreq : ℕ) (damped : Bool) :
    (predictHoltAdd alpha beta phi l0 b0 y hreq damped).lvl =
      (holtAddGo alpha beta phi l0 b0 y).1 := rfl

theorem predictHoltAdd_slp (alpha beta phi l0 b0 : ℚ) (y : List ℚ)
    (hreq : ℕ) (damped : Bool) :
    (predictHoltAdd alpha beta phi l0 b0 y hreq damped).slp =
      (holtAddGo alpha beta phi l0 b0 y).2 := rfl

/-- C7: For the additive-trend, non-seasonal `_predict`: at every forecast
step `k ∈ 1..h`, the forecast level array holds the final in-sample level
`l[n]` constant, and the forecast trend array entry equals the final in-sample
trend `b[n]` times the partial geometric sum `phi^1 + ... + phi^k` when
damped, and times `k` when not damped. -/
theorem holt_add_forecast_trend_decay (alpha beta phi l0 b0 : ℚ)
    (y : List ℚ) (hreq k : ℕ) (hk1 : 1 ≤ k) (hkh : k ≤ hreq) :
    ((predictHoltAdd alpha beta phi l0 b0 y hreq true).lArr.getD
        (y.length + k - 1) 0 =
      (predictHoltAdd alpha beta phi l0 b0 y hreq true).lvl.getD y.length 0) ∧
    ((predictHoltAdd alpha beta phi l0 b0 y hreq true).bArr.getD
        (y.length + k - 1) 0 =
      (predictHoltAdd alpha beta phi l0 b0 y hreq true).slp.getD y.length 0 *
        ∑ j ∈ Finset.Icc 1 k, phi ^ j) ∧
    ((predictHoltAdd alpha beta phi l0 b0 y hreq false).bArr.getD
        (y.length + k - 1) 0 =
      (predictHoltAdd alpha beta phi l0 b0 y hreq false).slp.getD y.length 0 *
        (k : ℚ)) := by
  have hh : (if hreq = 0 then 1 else hreq) = hreq := if_neg (by omega)
  set n := y.length with hn
  have hlen1 : (holtAddGo alpha beta phi l0 b0 y).1.length = n + 1 :=
    (holtAddGo_length alpha beta phi l0 b0 y).1
  have hlen2 : (holtAddGo alpha beta phi l0 b0 y).2.length = n + 1 :=
    (holtAddGo_length alpha beta phi l0 b0 y).2
  have htake1 : ((holtAddGo alpha beta phi l0 b0 y).1.take n).length = n := by
    rw [List.length_take, hlen1]; omega
  have htake2 : (((holtAddGo alpha beta phi l0 b0 y).2.take n).map
      (fun x => x * phi)).length = n := by
    rw [List.length_map, List.length_take, hlen2]; omega
  refine ⟨?_, ?_, ?_⟩
  · rw [predictHoltAdd_lArr, predictHoltAdd_lvl, hh,
      List.getD_append_right _ _ _ _ (by rw [htake1]; omega), htake1]
    have hrep : n + k - 1 - n < hreq := by omega
    rw [List.getD_eq_getElem _ _ (by rw [List.length_replicate]; exact hrep)]
    rw [List.getElem_replicate]
  · rw [predictHoltAdd_bArr, predictHoltAdd_slp, hh,
      List.getD_append_right _ _ _ _ (by rw [htake2]; omega), htake2]
    have hidx : n + k - 1 - n = k - 1 := by omega
    have hlt : k - 1 < ((phiHolt true phi hreq).map
        (fun c => (holtAddGo alpha beta phi l0 b0 y).2.getD n 0 * c)).length := by
      rw [List.length_map, phiHolt_length]; omega
    rw [hidx, List.getD_eq_getElem _ _ hlt]
    rw [List.getElem_map]
    congr 1
    have hlt2 : k - 1 < (phiHolt true phi hreq).length := by
      rw [phiHolt_length]; omega
    rw [← List.getD_eq_getElem _ 0 hlt2, phiHolt_damped_getD phi hreq k hk1 hkh]
  · rw [predictHoltAdd_bArr, predictHoltAdd_slp, hh,
      List.getD_append_right _ _ _ _ (by rw [htake2]; omega), htake2]
    have hidx : n + k - 1 - n = k - 1 := by omega
    have hlt : k - 1 < ((phiHolt false phi hreq).map
        (fun c => (holtAddGo alpha beta phi l0 b0 y).2.getD n 0 * c)).length := by
      rw [List.length_map, phiHolt_length]; omega
    rw [hidx, List.getD_eq_getElem _ _ hlt]
    rw [List.getElem_map]
    congr 1
    have hlt2 : k - 1 < (phiHolt false phi hreq).length := by
      rw [phiHolt_length]; omega
    rw [← List.getD_eq_getElem _ 0 hlt2, phiHolt_undamped_getD phi hreq k hk1 hkh]

/-- Witness for C7 at `phi = 4/5`, `y = [1, 2]`, `h = 2`, `k = 2`: the damped
forecast trend multiplier is `4/5 + (4/5)^2`. -/
theorem holt_add_forecast_trend_decay_witness :
    ((predictHoltAdd (1/2) (1/2) (4/5) 1 1 [1, 2] 2 true).lArr.getD 3 0 =
      (predictHoltAdd (1/2) (1/2) (4/5) 1 1 [1, 2] 2 true).lvl.getD 2 0) ∧
    ((predictHoltAdd (1/2) (1/2) (4/5) 1 1 [1, 2] 2 true).bArr.getD 3 0 =
      (predictHoltAdd (1/2) (1/2) (4/5) 1 1 [1, 2] 2 true).slp.getD 2 0 *
        ∑ j ∈ Finset.Icc 1 2, (4/5 : ℚ) ^ j) ∧
    ((predictHoltAdd (1/2) (1/2) (4/5) 1 1 [1, 2] 2 false).bArr.getD 3 0 =
      (predictHoltAdd (1/2) (1/2) (4/5) 1 1 [1, 2] 2 false).slp.getD 2 0 *
        (2 : ℚ)) :=
  holt_add_forecast_trend_decay (1/2) (1/2) (4/5) 1 1 [1, 2] 2 2
    (by decide) (by decide)

theorem pyDropLast_map (f : ℚ → ℚ) (xs : List ℚ) (k : ℕ) :
    pyDropLast (xs.map f) k = (pyDropLast xs k).map f := by
  by_cases hk : k = 0 <;>
    simp [pyDropLast, hk, List.length_map, List.map_take]

theorem pyFromLast_map (f : ℚ → ℚ) (xs : List ℚ) (k : ℕ) :
    pyFromLast (xs.map f) k = (pyFromLast xs k).map f := by
  by_cases hk : k = 0 <;>
    simp [pyFromLast, hk, List.length_map, List.map_drop]

/-- C10: `remove_bias` shifts only the fitted/forecast series fields
(`fittedfcast`, `fittedvalues`, `fcast`), each by the mean residual; `SSE`,
`AIC`, `AICc`, `BIC` and `resid` are computed from the unshifted fitted
values and are identical with and without the option. -/
theorem remove_bias_only_shifts_fitted (data fitted : List ℚ) (hreq k : ℕ) :
    (mkDiagnostics data fitted hreq k true).SSE =
      (mkDiagnostics data fitted hreq k false).SSE ∧
    (mkDiagnostics data fitted hreq k true).AIC =
      (mkDiagnostics data fitted hreq k false).AIC ∧
    (mkDiagnostics data fitted hreq k true).AICc =
      (mkDiagnostics data fitted hreq k false).AICc ∧
    (mkDiagnostics data fitted hreq k true).BIC =
      (mkDiagnostics data fitted hreq k false).BIC ∧
    (mkDiagnostics data fitted hreq k true).resid =
      (mkDiagnostics data fitted hreq k false).resid ∧
    (mkDiagnostics data fitted hreq k true).fittedfcast =
      (mkDiagnostics data fitted hreq k false).fittedfcast.map
        (fun v => v + mean (mkDiagnostics data fitted hreq k false).resid) ∧
    (mkDiagnostics data fitted hreq k true).fittedvalues =
      (mkDiagnostics data fitted hreq k false).fittedvalues.map
        (fun v => v + mean (mkDiagnostics data fitted hreq k false).resid) ∧
    (mkDiagnostics data fitted hreq k true).fcast =
      (mkDiagnostics data fitted hreq k false).fcast.map
        (fun v => v + mean (mkDiagnostics data fitted hreq k false).resid) := by
  refine ⟨rfl, rfl, rfl, rfl, rfl, rfl, ?_, ?_⟩
  · show pyDropLast (fitted.map _) _ = (pyDropLast fitted _).map _
    exact pyDropLast_map _ fitted _
  · show pyFromLast (fitted.map _) _ = (pyFromLast fitted _).map _
    exact pyFromLast_map _ fitted _

/-- C3: At requested horizon 0 the internal recursion runs with `h = 1`
(so `fittedfcast` has length `n + 1` and `fittedvalues` length `n`), but the
`fcast` field is *not* empty: `fitted[-h_fcast:]` with `h_fcast = 0` is
`fitted[-0:] = fitted[0:]`, the whole combined series.  Evaluated at
`y = [1, 2]`, `alpha = 1/2`, `l0 = 1`: `fcast` has length 3, not 0. -/
theorem h0_fcast_is_whole_series :
    (predictSimple (1/2) 1 [1, 2] 0 false).fittedfcast.length = 2 + 1 ∧
    (predictSimple (1/2) 1 [1, 2] 0 false).fittedvalues.length = 2 ∧
    (predictSimple (1/2) 1 [1, 2] 0 false).fcast =
      (predictSimple (1/2) 1 [1, 2] 0 false).fittedfcast ∧
    (predictSimple (1/2) 1 [1, 2] 0 false).fcast.length = 3 :=
  ⟨rfl, rfl, rfl, rfl⟩

/-- C4 counterexample: For the simplest model shape `k = 2` and a series
of length `n = 5 = k + 3` (so `n ≤ k + 3`), the AICc computation raises a
`ZeroDivisionError` (the integer division `(2*(k+2)*(k+3)) / (n-k-3)` has a
zero denominator) — it is an exception, not a reported non-finite value. -/
theorem aicc_short_sample_raises :
    (predictSimple (1/2) 1 [1, 1, 1, 1, 1] 0 false).AICc =
      .error "ZeroDivisionError" := rfl

/-- C4 amended: `AICc = AIC + 2(k+2)(k+3)/(n-k-3)` whenever
`n ≠ k + 3` (in particular for every `n < k + 3` the result is an ordinary
finite value with a negative correction term); for `n = k + 3` the
computation raises `ZeroDivisionError` instead of producing a non-finite
value. -/
theorem aicc_formula_or_zero_division (AIC : ℝ) (n k : ℕ) :
    ((n : ℤ) ≠ (k : ℤ) + 3 → computeAICc AIC n k =
      .ok (AIC + (2 * ((k : ℝ) + 2) * ((k : ℝ) + 3)) /
        ((n : ℝ) - (k : ℝ) - 3))) ∧
    ((n : ℤ) = (k : ℤ) + 3 →
      computeAICc AIC n k = .error "ZeroDivisionError") := by
  constructor
  · intro h
    rw [computeAICc, if_neg (by omega)]
  · intro h
    rw [computeAICc, if_pos (by omega)]

/-- Witness for C4's amended statement at `n = 9, k = 2` (formula case) and
`n = 5, k = 2` (zero-division case). -/
theorem aicc_formula_or_zero_division_witness :
    computeAICc 0 9 2 =
      .ok ((0 : ℝ) + (2 * (((2 : ℕ) : ℝ) + 2) * (((2 : ℕ) : ℝ) + 3)) /
        (((9 : ℕ) : ℝ) - ((2 : ℕ) : ℝ) - 3)) ∧
    computeAICc 0 5 2 = .error "ZeroDivisionError" :=
  ⟨(aicc_formula_or_zero_division 0 9 2).1 (by decide),
   (aicc_formula_or_zero_division 0 5 2).2 (by decide)⟩

/-- C6 counterexample: For a seasonal model without trend
(`seasoning = true`, `trending = false`) and `beta` not user-fixed, the mask
entry for `beta` (index 1) is `true`: `beta` *is* in the estimated free set,
contradicting "beta free iff trending and not user-fixed". -/
theorem beta_free_in_seasonal_nontrending :
    (xiMask true false false false false false false 4).getD 1 false =
      true := rfl

/-- C6 amended: The mask marks `beta` as free iff `beta` is not
user-fixed and the model is trending *or seasonal*: the seasonal branch of
the mask construction uses `beta is None` without consulting `trending`. -/
theorem beta_mask_free_iff (seasoning trending damped : Bool)
    (aFix bFix gFix pFix : Bool) (m : ℕ) :
    (xiMask seasoning trending damped aFix bFix gFix pFix m).getD 1 false =
      (!bFix && (trending || seasoning)) := by
  cases seasoning <;> cases trending <;> cases bFix <;> simp [xiMask]

/-- C5 counterexample: A trending seasonal model with `m = 2` and a
series of length `3 < 2·m` does *not* fail: the NumPy broadcast of the
length-1 slice `y[2:4]` against the length-2 slice `y[:2]` succeeds, `b0`
initializes to `3/4`, and fitting proceeds with no invalid-input error. -/
theorem seasonal_b0_short_series_no_error :
    seasonalB0 [1, 2, 3] 2 = .ok (3 / 4) := by
  rw [seasonalB0]
  norm_num [npBroadcastSub, mean, Except.map]

/-- C5 amended: For a trending seasonal model with period `m ≥ 2` fit
on a series with `m ≤ n < 2·m` (fewer than the two full cycles the seasonal
`b0` initializer needs), initialization raises an error iff `n ≠ m + 1`, and
the error is an accidental broadcast shape mismatch rather than an explicit
validation; for `n = m + 1` the slice `y[m:2m]` has length 1, broadcasts
against `y[:m]`, and fitting proceeds with no error at all. -/
theorem seasonal_b0_short_series_cases (y : List ℚ) (m : ℕ)
    (hm : 2 ≤ m) (h1 : m ≤ y.length) (h2 : y.length < 2 * m) :
    (y.length = m + 1 → seasonalB0 y m =
      .ok (mean (((y.take m).map (fun z => y.getD m 0 - z)).map
        (fun x => x / m)))) ∧
    (y.length ≠ m + 1 → seasonalB0 y m =
      .error "ValueError: operands could not be broadcast together") := by
  have ha : ((y.drop m).take m).length = y.length - m := by
    rw [List.length_take, List.length_drop]; omega
  have hb : (y.take m).length = m := by
    rw [List.length_take]; omega
  constructor
  · intro hlen
    have ha0 : (y.drop m).take m = [y.getD m 0] := by
      have hl : ((y.drop m).take m).length = 1 := by omega
      apply List.ext_getElem (by rw [hl]; rfl)
      intro i h1 h2
      have hi0 : i = 0 := by omega
      subst hi0
      rw [List.getElem_take, List.getElem_drop,
        List.getD_eq_getElem y 0 (by omega)]
      simp
    rw [seasonalB0, npBroadcastSub, ha0]
    rw [if_neg (by
      rw [(show ([y.getD m 0] : List ℚ).length = 1 from rfl), hb]
      omega)]
    rw [if_pos (show ([y.getD m 0] : List ℚ).length = 1 from rfl)]
    simp [Except.map]
  · intro hlen
    rw [seasonalB0, npBroadcastSub]
    rw [if_neg (by rw [ha, hb]; omega), if_neg (by rw [ha]; omega),
      if_neg (by rw [hb]; omega)]
    rfl

/-- Witness for C5's amended statement at `m = 3` with `n = 4 = m + 1`
(no error, `b0` computed) and `n = 5 ≠ m + 1` (broadcast error). -/
theorem seasonal_b0_short_series_cases_witness :
    seasonalB0 [1, 2, 3, 4] 3 =
      .ok (mean ((([(1 : ℚ), 2, 3, 4].take 3).map
        (fun z => [(1 : ℚ), 2, 3, 4].getD 3 0 - z)).map
          (fun x => x / (3 : ℕ)))) ∧
    seasonalB0 [1, 2, 3, 4, 5] 3 =
      .error "ValueError: operands could not be broadcast together" :=
  ⟨(seasonal_b0_short_series_cases [1, 2, 3, 4] 3 (by decide) (by decide)
      (by decide)).1 (by decide),
   (seasonal_b0_short_series_cases [1, 2, 3, 4, 5] 3 (by decide) (by decide)
      (by decide)).2 (by decide)⟩

theorem list_range_filter_map_sum (f : ℕ → ℚ) (p : ℕ → Bool) (n : ℕ) :
    (((List.range n).filter p).map f).sum =
      ∑ i ∈ (Finset.range n).filter (fun i => p i = true), f i := by
  induction n with
  | zero => simp
  | succ n ih =>
    rw [List.range_succ, List.filter_append, List.map_append, List.sum_append,
      Finset.range_succ, Finset.filter_insert]
    by_cases hp : p n = true
    · rw [if_pos hp, Finset.sum_insert (by simp)]
      simp [hp, ih, add_comm]
    · rw [if_neg hp]
      simp [hp, ih]

theorem list_range_map_sum (f : ℕ → ℚ) (n : ℕ) :
    ((List.range n).map f).sum = ∑ i ∈ Finset.range n, f i := by
  induction n with
  | zero => simp
  | succ n ih =>
    rw [List.range_succ, List.map_append, List.sum_append,
      Finset.sum_range_succ, ih]
    simp

theorem list_range_filter_length (p : ℕ → Bool) (n : ℕ) :
    ((List.range n).filter p).length =
      ((Finset.range n).filter (fun i => p i = true)).card := by
  induction n with
  | zero => simp
  | succ n ih =>
    rw [List.range_succ, List.filter_append, List.length_append,
      Finset.range_succ, Finset.filter_insert]
    by_cases hp : p n = true
    · rw [if_pos hp, Finset.card_insert_of_not_mem (by simp)]
      simp [hp, ih]
    · rw [if_neg hp]
      simp [hp, ih]

/-- C8: For `n ≥ 2m`, `m ≥ 1`, the seasonal initializer computes:
`l0` = mean of `y` at the indices that are multiples of `m`; `b0` = mean
over `t = 0..m-1` of `(y[t+m] - y[t])/m`; and `s0[j] = y[j]/l0`
(multiplicative seasonality) or `y[j] - l0` (additive), for each `j < m`. -/
theorem seasonal_initializer_spec (y : List ℚ) (m j : ℕ) (hm : 1 ≤ m)
    (hn : 2 * m ≤ y.length) (hj : j < m) :
    seasonalL0 y m =
      (∑ i ∈ (Finset.range y.length).filter (fun i => m ∣ i), y.getD i 0) /
        ((Finset.range y.length).filter (fun i => m ∣ i)).card ∧
    seasonalB0 y m = .ok
      ((∑ t ∈ Finset.range m, (y.getD (t + m) 0 - y.getD t 0) / m) / m) ∧
    (seasonalS0 y m true).getD j 0 = y.getD j 0 / seasonalL0 y m ∧
    (seasonalS0 y m false).getD j 0 = y.getD j 0 - seasonalL0 y m := by
  have hfilter :
      (Finset.range y.length).filter (fun i => (decide (i % m = 0)) = true) =
        (Finset.range y.length).filter (fun i => m ∣ i) := by
    apply Finset.filter_congr
    intro i _
    rw [decide_eq_true_eq]
    exact Nat.dvd_iff_mod_eq_zero.symm
  refine ⟨?_, ?_, ?_, ?_⟩
  · rw [seasonalL0, mean, list_range_filter_map_sum, List.length_map,
      list_range_filter_length, hfilter]
  · have hzip : List.zipWith (fun x z => x - z) ((y.drop m).take m)
        (y.take m) =
        (List.range m).map (fun t => y.getD (m + t) 0 - y.getD t 0) := by
      apply List.ext_getElem
      · rw [List.length_zipWith, List.length_take, List.length_drop,
          List.length_take, List.length_map, List.length_range]
        omega
      · intro i h1 h2
        rw [List.getElem_zipWith, List.getElem_take, List.getElem_drop,
          List.getElem_take, List.getElem_map, List.getElem_range]
        have hi : i < m := by
          rw [List.length_map, List.length_range] at h2
          exact h2
        rw [List.getD_eq_getElem y 0 (by omega),
          List.getD_eq_getElem y 0 (by omega)]
    rw [seasonalB0, npBroadcastSub,
      if_pos (by
        rw [List.length_take, List.length_drop, List.length_take]
        omega),
      hzip]
    simp only [Except.map]
    congr 1
    rw [mean, List.map_map, List.length_map, List.length_range,
      list_range_map_sum]
    congr 1
    apply Finset.sum_congr rfl
    intro t _
    simp only [Function.comp]
    rw [Nat.add_comm m t]
  · rw [seasonalS0, if_pos rfl,
      List.getD_eq_getElem _ _ (by rw [List.length_map, List.length_take]; omega),
      List.getElem_map, List.getElem_take,
      List.getD_eq_getElem y 0 (by omega)]
  · rw [seasonalS0, if_neg (by simp),
      List.getD_eq_getElem _ _ (by rw [List.length_map, List.length_take]; omega),
      List.getElem_map, List.getElem_take,
      List.getD_eq_getElem y 0 (by omega)]

/-- A concrete series for the C8 witness: two full cycles of period 2. -/
def witY : List ℚ := [1, 2, 3, 4]

/-- Witness for C8 at `y = [1, 2, 3, 4]`, `m = 2`, `j = 1`. -/
theorem seasonal_initializer_spec_witness :
    seasonalL0 witY 2 =
      (∑ i ∈ (Finset.range witY.length).filter (fun i => 2 ∣ i),
        witY.getD i 0) /
        ((Finset.range witY.length).filter (fun i => 2 ∣ i)).card ∧
    seasonalB0 witY 2 = .ok
      ((∑ t ∈ Finset.range 2,
        (witY.getD (t + 2) 0 - witY.getD t 0) / (2 : ℕ)) / (2 : ℕ)) ∧
    (seasonalS0 witY 2 true).getD 1 0 = witY.getD 1 0 / seasonalL0 witY 2 ∧
    (seasonalS0 witY 2 false).getD 1 0 = witY.getD 1 0 - seasonalL0 witY 2 :=
  seasonal_initializer_spec witY 2 1 (by decide) (by decide) (by decide)

/-! ## The specialized objective functions (lines 44-222)

These model the `_holt_*` / `_holt_win_*` minimization functions over `ℝ`
(the multiplicative-trend variants use `b ** phi`, modelled by `Real.rpow`).
The candidate-merge `p[xi] = x` of `_holt_init` / `_holt_win_init` is taken
as already performed: each function receives the complete merged parameter
vector `(alpha, beta, gamma, l0, b0, phi, s0)`.  The `for i in range(1, n)`
loops append to list-modelled arrays whose index-`(i-1)` reads hit the cells
written in the previous iteration (or the seed values). -/

/-- Python `for i in range(start, stop)` folding a state. -/
def pyFor {σ : Type} (start stop : ℕ) (body : ℕ → σ → σ) (init : σ) : σ :=
  (List.range' start (stop - start)).foldl (fun st i => body i st) init

/-- `scipy.spatial.distance.sqeuclidean` over `ℝ`. -/
noncomputable def sqeuclideanR (a b : List ℝ) : ℝ :=
  (List.zipWith (fun x z => (x - z) ^ 2) a b).sum

/-- Loop of `_holt_add_dam` (lines 84-86). -/
noncomputable def holt_add_dam_loop (alpha beta phi l0 b0 : ℝ) (y : List ℝ)
    (n : ℕ) : List ℝ × List ℝ :=
  pyFor 1 n (fun i st =>
    let lp := st.1.getD (i - 1) 0
    let bp := st.2.getD (i - 1) 0
    let li := alpha * y.getD (i - 1) 0 + (1 - alpha) * (lp + phi * bp)
    let bi := beta * (li - lp) + (1 - beta) * phi * bp
    (st.1 ++ [li], st.2 ++ [bi])) ([l0], [b0])

/-- `_holt_add_dam` (lines 73-87): additive/additive-damped trend objective.
Returns `max_seen` when `alpha == 0` or `beta > alpha`, else the SSE of the
recombination `l + phi * b` against `y`. -/
noncomputable def holt_add_dam (alpha beta phi l0 b0 : ℝ) (y : List ℝ)
    (n : ℕ) (max_seen : ℝ) : ℝ :=
  if alpha = 0 then max_seen
  else if beta > alpha then max_seen
  else sqeuclideanR
    (List.zipWith (fun li bi => li + phi * bi)
      (holt_add_dam_loop alpha beta phi l0 b0 y n).1
      (holt_add_dam_loop alpha beta phi l0 b0 y n).2) y

/-- Loop of `_holt_mul_dam` (lines 67-69). -/
noncomputable def holt_mul_dam_loop (alpha beta phi l0 b0 : ℝ) (y : List ℝ)
    (n : ℕ) : List ℝ × List ℝ :=
  pyFor 1 n (fun i st =>
    let lp := st.1.getD (i - 1) 0
    let bp := st.2.getD (i - 1) 0
    let li := alpha * y.getD (i - 1) 0 + (1 - alpha) * (lp * bp ^ phi)
    let bi := beta * (li / lp) + (1 - beta) * bp ^ phi
    (st.1 ++ [li], st.2 ++ [bi])) ([l0], [b0])

/-- `_holt_mul_dam` (lines 56-70): multiplicative(-damped) trend objective;
recombination `l * b**phi`. -/
noncomputable def holt_mul_dam (alpha beta phi l0 b0 : ℝ) (y : List ℝ)
    (n : ℕ) (max_seen : ℝ) : ℝ :=
  if alpha = 0 then max_seen
  else if beta > alpha then max_seen
  else sqeuclideanR
    (List.zipWith (fun li bi => li * bi ^ phi)
      (holt_mul_dam_loop alpha beta phi l0 b0 y n).1
      (holt_mul_dam_loop alpha beta phi l0 b0 y n).2) y

/-- Loop of `_holt_win_add_add_dam` (lines 195-200). -/
noncomputable def holt_win_add_add_dam_loop
    (alpha beta gamma phi l0 b0 : ℝ) (s0 y : List ℝ) (n : ℕ) :
    List ℝ × List ℝ × List ℝ :=
  pyFor 1 n (fun i st =>
    let lp := st.1.getD (i - 1) 0
    let bp := st.2.1.getD (i - 1) 0
    let sp := st.2.2.getD (i - 1) 0
    let li := alpha * y.getD (i - 1) 0 - alpha * sp +
      (1 - alpha) * (lp + phi * bp)
    let bi := beta * (li - lp) + (1 - beta) * phi * bp
    let si := gamma * y.getD (i - 1) 0 - gamma * (lp + phi * bp) +
      (1 - gamma) * sp
    (st.1 ++ [li], st.2.1 ++ [bi], st.2.2 ++ [si])) ([l0], [b0], s0)

/-- `_holt_win_add_add_dam` (lines 183-201): additive(-damped) trend with
additive seasonal; recombination `(l + phi*b) + s[:-(m-1)]`. -/
noncomputable def holt_win_add_add_dam
    (alpha beta gamma phi l0 b0 : ℝ) (s0 y : List ℝ) (m n : ℕ)
    (max_seen : ℝ) : ℝ :=
  if alpha * beta = 0 then max_seen
  else if beta > alpha ∨ gamma > 1 - alpha then max_seen
  else sqeuclideanR
    (List.zipWith (fun lb si => lb + si)
      (List.zipWith (fun li bi => li + phi * bi)
        (holt_win_add_add_dam_loop alpha beta gamma phi l0 b0 s0 y n).1
        (holt_win_add_add_dam_loop alpha beta gamma phi l0 b0 s0 y n).2.1)
      (pyDropLast
        (holt_win_add_add_dam_loop alpha beta gamma phi l0 b0 s0 y n).2.2
        (m - 1))) y

/-- Loop of `_holt_win_mul_mul_dam` (lines 174-179). -/
noncomputable def holt_win_mul_mul_dam_loop
    (alpha beta gamma phi l0 b0 : ℝ) (s0 y : List ℝ) (n : ℕ) :
    List ℝ × List ℝ × List ℝ :=
  pyFor 1 n (fun i st =>
    let lp := st.1.getD (i - 1) 0
    let bp := st.2.1.getD (i - 1) 0
    let sp := st.2.2.getD (i - 1) 0
    let li := alpha * y.getD (i - 1) 0 / sp + (1 - alpha) * (lp * bp ^ phi)
    let bi := beta * (li / lp) + (1 - beta) * bp ^ phi
    let si := gamma * y.getD (i - 1) 0 / (lp * bp ^ phi) + (1 - gamma) * sp
    (st.1 ++ [li], st.2.1 ++ [bi], st.2.2 ++ [si])) ([l0], [b0], s0)

/-- `_holt_win_mul_mul_dam` (lines 162-180): multiplicative(-damped) trend
with multiplicative seasonal; recombination `(l * b**phi) * s[:-(m-1)]`. -/
noncomputable def holt_win_mul_mul_dam
    (alpha beta gamma phi l0 b0 : ℝ) (s0 y : List ℝ) (m n : ℕ)
    (max_seen : ℝ) : ℝ :=
  if alpha * beta = 0 then max_seen
  else if beta > alpha ∨ gamma > 1 - alpha then max_seen
  else sqeuclideanR
    (List.zipWith (fun lb si => lb * si)
      (List.zipWith (fun li bi => li * bi ^ phi)
        (holt_win_mul_mul_dam_loop alpha beta gamma phi l0 b0 s0 y n).1
        (holt_win_mul_mul_dam_loop alpha beta gamma phi l0 b0 s0 y n).2.1)
      (pyDropLast
        (holt_win_mul_mul_dam_loop alpha beta gamma phi l0 b0 s0 y n).2.2
        (m - 1))) y

/-- Loop of `_holt_win_add_mul_dam` (lines 153-158). -/
noncomputable def holt_win_add_mul_dam_loop
    (alpha beta gamma phi l0 b0 : ℝ) (s0 y : List ℝ) (n : ℕ) :
    List ℝ × List ℝ × List ℝ :=
  pyFor 1 n (fun i st =>
    let lp := st.1.getD (i - 1) 0
    let bp := st.2.1.getD (i - 1) 0
    let sp := st.2.2.getD (i - 1) 0
    let li := alpha * y.getD (i - 1) 0 / sp + (1 - alpha) * (lp + phi * bp)
    let bi := beta * (li - lp) + (1 - beta) * phi * bp
    let si := gamma * y.getD (i - 1) 0 / (lp + phi * bp) + (1 - gamma) * sp
    (st.1 ++ [li], st.2.1 ++ [bi], st.2.2 ++ [si])) ([l0], [b0], s0)

/-- `_holt_win_add_mul_dam` (lines 141-159): additive(-damped) trend with
multiplicative seasonal; recombination `(l + phi*b) * s[:-(m-1)]`. -/
noncomputable def holt_win_add_mul_dam
    (alpha beta gamma phi l0 b0 : ℝ) (s0 y : List ℝ) (m n : ℕ)
    (max_seen : ℝ) : ℝ :=
  if alpha * beta = 0 then max_seen
  else if beta > alpha ∨ gamma > 1 - alpha then max_seen
  else sqeuclideanR
    (List.zipWith (fun lb si => lb * si)
      (List.zipWith (fun li bi => li + phi * bi)
        (holt_win_add_mul_dam_loop alpha beta gamma phi l0 b0 s0 y n).1
        (holt_win_add_mul_dam_loop alpha beta gamma phi l0 b0 s0 y n).2.1)
      (pyDropLast
        (holt_win_add_mul_dam_loop alpha beta gamma phi l0 b0 s0 y n).2.2
        (m - 1))) y

/-- Loop of `_holt_win_mul_add_dam` (lines 216-221). -/
noncomputable def holt_win_mul_add_dam_loop
    (alpha beta gamma phi l0 b0 : ℝ) (s0 y : List ℝ) (n : ℕ) :
    List ℝ × List ℝ × List ℝ :=
  pyFor 1 n (fun i st =>
    let lp := st.1.getD (i - 1) 0
    let bp := st.2.1.getD (i - 1) 0
    let sp := st.2.2.getD (i - 1) 0
    let li := alpha * y.getD (i - 1) 0 - alpha * sp +
      (1 - alpha) * (lp * bp ^ phi)
    let bi := beta * (li / lp) + (1 - beta) * bp ^ phi
    let si := gamma * y.getD (i - 1) 0 - gamma * (lp * bp ^ phi) +
      (1 - gamma) * sp
    (st.1 ++ [li], st.2.1 ++ [bi], st.2.2 ++ [si])) ([l0], [b0], s0)

/-- The fitted recombination of `_holt_win_mul_add_dam`, exactly as written
on line 222: `(l * phi * b) + s[:-(m - 1)]` — note `l * phi * b`, a linear
damping of the multiplicative trend, not `l * b**phi`. -/
noncomputable def holt_win_mul_add_dam_fitted
    (alpha beta gamma phi l0 b0 : ℝ) (s0 y : List ℝ) (m n : ℕ) : List ℝ :=
  List.zipWith (fun lb si => lb + si)
    (List.zipWith (fun li bi => li * phi * bi)
      (holt_win_mul_add_dam_loop alpha beta gamma phi l0 b0 s0 y n).1
      (holt_win_mul_add_dam_loop alpha beta gamma phi l0 b0 s0 y n).2.1)
    (pyDropLast
      (holt_win_mul_add_dam_loop alpha beta gamma phi l0 b0 s0 y n).2.2
      (m - 1))

/-- `_holt_win_mul_add_dam` (lines 204-222): multiplicative(-damped) trend
with additive seasonal. -/
noncomputable def holt_win_mul_add_dam
    (alpha beta gamma phi l0 b0 : ℝ) (s0 y : List ℝ) (m n : ℕ)
    (max_seen : ℝ) : ℝ :=
  if alpha * beta = 0 then max_seen
  else if beta > alpha ∨ gamma > 1 - alpha then max_seen
  else sqeuclideanR
    (holt_win_mul_add_dam_fitted alpha beta gamma phi l0 b0 s0 y m n) y

/-- C2: Every trending-model objective function (the six `_holt*_dam`
variants) returns the penalty sentinel `max_seen` whenever the candidate has
`beta > alpha` — never a recursion-computed SSE. -/
theorem trending_objectives_penalize_beta_gt_alpha
    (alpha beta gamma phi l0 b0 : ℝ) (s0 y : List ℝ) (m n : ℕ)
    (max_seen : ℝ) (hba : beta > alpha) :
    holt_add_dam alpha beta phi l0 b0 y n max_seen = max_seen ∧
    holt_mul_dam alpha beta phi l0 b0 y n max_seen = max_seen ∧
    holt_win_add_add_dam alpha beta gamma phi l0 b0 s0 y m n max_seen =
      max_seen ∧
    holt_win_mul_mul_dam alpha beta gamma phi l0 b0 s0 y m n max_seen =
      max_seen ∧
    holt_win_add_mul_dam alpha beta gamma phi l0 b0 s0 y m n max_seen =
      max_seen ∧
    holt_win_mul_add_dam alpha beta gamma phi l0 b0 s0 y m n max_seen =
      max_seen := by
  refine ⟨?_, ?_, ?_, ?_, ?_, ?_⟩
  · by_cases h : alpha = 0
    · rw [holt_add_dam, if_pos h]
    · rw [holt_add_dam, if_neg h, if_pos hba]
  · by_cases h : alpha = 0
    · rw [holt_mul_dam, if_pos h]
    · rw [holt_mul_dam, if_neg h, if_pos hba]
  · by_cases h : alpha * beta = 0
    · rw [holt_win_add_add_dam, if_pos h]
    · rw [holt_win_add_add_dam, if_neg h, if_pos (Or.inl hba)]
  · by_cases h : alpha * beta = 0
    · rw [holt_win_mul_mul_dam, if_pos h]
    · rw [holt_win_mul_mul_dam, if_neg h, if_pos (Or.inl hba)]
  · by_cases h : alpha * beta = 0
    · rw [holt_win_add_mul_dam, if_pos h]
    · rw [holt_win_add_mul_dam, if_neg h, if_pos (Or.inl hba)]
  · by_cases h : alpha * beta = 0
    · rw [holt_win_mul_add_dam, if_pos h]
    · rw [holt_win_mul_add_dam, if_neg h, if_pos (Or.inl hba)]

/-- Witness for C2 at `alpha = 1/2`, `beta = 3/4`. -/
theorem trending_objectives_penalize_beta_gt_alpha_witness :
    holt_add_dam (1/2) (3/4) 1 1 1 [1, 2] 2 12345 = 12345 ∧
    holt_mul_dam (1/2) (3/4) 1 1 1 [1, 2] 2 12345 = 12345 ∧
    holt_win_add_add_dam (1/2) (3/4) 0 1 1 1 [0, 0] [1, 2] 2 2 12345 =
      12345 ∧
    holt_win_mul_mul_dam (1/2) (3/4) 0 1 1 1 [0, 0] [1, 2] 2 2 12345 =
      12345 ∧
    holt_win_add_mul_dam (1/2) (3/4) 0 1 1 1 [0, 0] [1, 2] 2 2 12345 =
      12345 ∧
    holt_win_mul_add_dam (1/2) (3/4) 0 1 1 1 [0, 0] [1, 2] 2 2 12345 =
      12345 :=
  trending_objectives_penalize_beta_gt_alpha (1/2) (3/4) 0 1 1 1 [0, 0]
    [1, 2] 2 2 12345 (by norm_num)

/-- C9: The four trending seasonal objectives penalize `alpha * beta = 0`
(so `beta = 0` is penalized whatever `alpha` is), while the trend-only
objectives penalize only `alpha = 0`: with `alpha ≠ 0` and `beta ≤ alpha`
they run the recursion and return its SSE even when `beta = 0`. -/
theorem seasonal_trend_alpha_beta_product_penalty
    (alpha beta gamma phi l0 b0 : ℝ) (s0 y : List ℝ) (m n : ℕ)
    (max_seen : ℝ) :
    (alpha * beta = 0 →
      holt_win_add_add_dam alpha beta gamma phi l0 b0 s0 y m n max_seen =
        max_seen ∧
      holt_win_mul_mul_dam alpha beta gamma phi l0 b0 s0 y m n max_seen =
        max_seen ∧
      holt_win_add_mul_dam alpha beta gamma phi l0 b0 s0 y m n max_seen =
        max_seen ∧
      holt_win_mul_add_dam alpha beta gamma phi l0 b0 s0 y m n max_seen =
        max_seen) ∧
    (alpha ≠ 0 → ¬ beta > alpha →
      holt_add_dam alpha beta phi l0 b0 y n max_seen =
        sqeuclideanR
          (List.zipWith (fun li bi => li + phi * bi)
            (holt_add_dam_loop alpha beta phi l0 b0 y n).1
            (holt_add_dam_loop alpha beta phi l0 b0 y n).2) y ∧
      holt_mul_dam alpha beta phi l0 b0 y n max_seen =
        sqeuclideanR
          (List.zipWith (fun li bi => li * bi ^ phi)
            (holt_mul_dam_loop alpha beta phi l0 b0 y n).1
            (holt_mul_dam_loop alpha beta phi l0 b0 y n).2) y) := by
  constructor
  · intro h
    exact ⟨by rw [holt_win_add_add_dam, if_pos h],
      by rw [holt_win_mul_mul_dam, if_pos h],
      by rw [holt_win_add_mul_dam, if_pos h],
      by rw [holt_win_mul_add_dam, if_pos h]⟩
  · intro ha hb
    exact ⟨by rw [holt_add_dam, if_neg ha, if_neg hb],
      by rw [holt_mul_dam, if_neg ha, if_neg hb]⟩

/-- Witness for C9 at `beta = 0`: the seasonal-trend objective with
`alpha = 1/2, beta = 0` returns the sentinel, while the trend-only
objectives with the same candidate run the recursion. -/
theorem seasonal_trend_alpha_beta_product_penalty_witness :
    (holt_win_add_add_dam (1/2) 0 0 1 1 1 [0, 0] [1, 2] 2 2 12345 = 12345 ∧
     holt_win_mul_mul_dam (1/2) 0 0 1 1 1 [0, 0] [1, 2] 2 2 12345 = 12345 ∧
     holt_win_add_mul_dam (1/2) 0 0 1 1 1 [0, 0] [1, 2] 2 2 12345 = 12345 ∧
     holt_win_mul_add_dam (1/2) 0 0 1 1 1 [0, 0] [1, 2] 2 2 12345 =
       12345) ∧
    (holt_add_dam (1/2) 0 1 1 1 [1, 2] 2 12345 =
      sqeuclideanR
        (List.zipWith (fun li bi => li + 1 * bi)
          (holt_add_dam_loop (1/2) 0 1 1 1 [1, 2] 2).1
          (holt_add_dam_loop (1/2) 0 1 1 1 [1, 2] 2).2) [1, 2] ∧
     holt_mul_dam (1/2) 0 1 1 1 [1, 2] 2 12345 =
      sqeuclideanR
        (List.zipWith (fun li bi => li * bi ^ (1 : ℝ))
          (holt_mul_dam_loop (1/2) 0 1 1 1 [1, 2] 2).1
          (holt_mul_dam_loop (1/2) 0 1 1 1 [1, 2] 2).2) [1, 2]) :=
  ⟨(seasonal_trend_alpha_beta_product_penalty (1/2) 0 0 1 1 1 [0, 0]
      [1, 2] 2 2 12345).1 (by norm_num),
   (seasonal_trend_alpha_beta_product_penalty (1/2) 0 0 1 1 1 [0, 0]
      [1, 2] 2 2 12345).2 (by norm_num) (by norm_num)⟩

/-! ## The parametrized recursion of `_predict` (lines 617-662)

`_predict` replaces the nine specialized loops with one recursion
parametrized by the combinator dictionaries
`trended = {mul: *, add: +, None: fst}`,
`detrend = {mul: /, add: -, None: 0}`,
`dampen = {mul: **, add: *, None: 0}` selected by the trend kind. -/

inductive TrendKind where
  | tnone
  | tadd
  | tmul

/-- Line 617-620: `trended`. -/
noncomputable def trended : TrendKind → ℝ → ℝ → ℝ
  | .tmul => fun l b => l * b
  | .tadd => fun l b => l + b
  | .tnone => fun l _ => l

/-- Line 621-624: `detrend`. -/
noncomputable def detrend : TrendKind → ℝ → ℝ → ℝ
  | .tmul => fun a b => a / b
  | .tadd => fun a b => a - b
  | .tnone => fun _ _ => 0

/-- Line 625-628: `dampen` (`np.power` for the multiplicative trend,
modelled by `Real.rpow`). -/
noncomputable def dampen : TrendKind → ℝ → ℝ → ℝ
  | .tmul => fun b phi => b ^ phi
  | .tadd => fun b phi => b * phi
  | .tnone => fun _ _ => 0

/-- The `seasonal == 'add'` in-sample loop of `_predict` (lines 647-655),
`for i in range(1, n + 1)`:
`l[i] = y_alpha[i-1] - alpha*s[i-1] + alphac*trended(l[i-1], dampen(b[i-1], phi))`,
`b[i] = beta*detrend(l[i], l[i-1]) + betac*dampen(b[i-1], phi)` when
trending (else `b[i]` stays 0), and
`s[i+m-1] = y_gamma[i-1] - gamma*trended(l[i-1], dampen(b[i-1], phi)) + gammac*s[i-1]`. -/
noncomputable def predict_add_seasonal_loop (t : TrendKind) (trending : Bool)
    (alpha beta gamma phi l0 b0 : ℝ) (s0 y : List ℝ) (n : ℕ) :
    List ℝ × List ℝ × List ℝ :=
  pyFor 1 (n + 1) (fun i st =>
    let lp := st.1.getD (i - 1) 0
    let bp := st.2.1.getD (i - 1) 0
    let sp := st.2.2.getD (i - 1) 0
    let li := alpha * y.getD (i - 1) 0 - alpha * sp +
      (1 - alpha) * trended t lp (dampen t bp phi)
    let bi := if trending then
        beta * detrend t li lp + (1 - beta) * dampen t bp phi
      else 0
    let si := gamma * y.getD (i - 1) 0 -
      gamma * trended t lp (dampen t bp phi) + (1 - gamma) * sp
    (st.1 ++ [li], st.2.1 ++ [bi], st.2.2 ++ [si])) ([l0], [b0], s0)

/-- The in-sample entries (indices `0..n-1`) of the recombination
`fitted = trended(l, b) + s[:-m]` of the `seasonal == 'add'` branch (line
662) after `b[:i] = dampen(b[:i], phi)` (line 659): entry `j` is
`trended(l[j], dampen(b[j], phi)) + s[j]`. -/
noncomputable def predict_add_seasonal_fittedIn (t : TrendKind)
    (trending : Bool) (alpha beta gamma phi l0 b0 : ℝ) (s0 y : List ℝ)
    (n : ℕ) : List ℝ :=
  (List.range n).map (fun j =>
    trended t
      ((predict_add_seasonal_loop t trending alpha beta gamma phi l0 b0 s0 y
        n).1.getD j 0)
      (dampen t
        ((predict_add_seasonal_loop t trending alpha beta gamma phi l0 b0 s0 y
          n).2.1.getD j 0) phi) +
    (predict_add_seasonal_loop t trending alpha beta gamma phi l0 b0 s0 y
      n).2.2.getD j 0)

/-- C1: At the complete parameter vector `alpha = 1, beta = 1, gamma = 0,
phi = 1/2, l0 = b0 = 1, s0 = [0, 0]` and series `y = [1, 1]` (`m = 2`,
`n = 2`), the specialized multiplicative-trend/additive-seasonal objective
`_holt_win_mul_add_dam` recombines its fitted series as
`(l * phi * b) + s = [1/2, 1/2]`, while the parametrized `_predict`
recursion recombines `trended(l, dampen(b, phi)) + s = (l * b**phi) + s
= [1, 1]`: the two variants do not compute the same fitted recombination. -/
theorem mul_add_dam_recombination_mismatch :
    holt_win_mul_add_dam_fitted 1 1 0 (1/2) 1 1 [0, 0] [1, 1] 2 2 =
      [1/2, 1/2] ∧
    predict_add_seasonal_fittedIn .tmul true 1 1 0 (1/2) 1 1 [0, 0] [1, 1]
      2 = [1, 1] ∧
    holt_win_mul_add_dam_fitted 1 1 0 (1/2) 1 1 [0, 0] [1, 1] 2 2 ≠
      predict_add_seasonal_fittedIn .tmul true 1 1 0 (1/2) 1 1 [0, 0] [1, 1]
        2 := by
  have e1 : List.range' 1 1 = [1] := rfl
  have e2 : List.range' 1 2 = [1, 2] := rfl
  have h1 : holt_win_mul_add_dam_fitted 1 1 0 (1/2) 1 1 [0, 0] [1, 1] 2 2 =
      [1/2, 1/2] := by
    simp only [holt_win_mul_add_dam_fitted, holt_win_mul_add_dam_loop, pyFor]
    norm_num [e1, List.foldl, pyDropLast, Real.one_rpow]
  have h2 : predict_add_seasonal_fittedIn .tmul true 1 1 0 (1/2) 1 1 [0, 0]
      [1, 1] 2 = [1, 1] := by
    simp only [predict_add_seasonal_fittedIn, predict_add_seasonal_loop,
      pyFor, trended, dampen, detrend]
    norm_num [e2, List.foldl, List.range, List.range.loop, Real.one_rpow]
  refine ⟨h1, h2, ?_⟩
  rw [h1, h2]
  simp only [ne_eq, List.cons.injEq]
  norm_num

end HoltWinters
